import Mathlib

/-!
Verification of the process-execution core (`src/process.rs`) of the
sleipnir/enigma runtime: the `ExecutionContext` / `Process` data model and
the `allocate` / `spawn` / `send_message` orchestration functions, embedded
shallowly.  External collaborators (value representation, mailbox, module,
process table, scheduler pool) are not part of the shown source; they are
modelled from the interface contracts of the design document and carry a
doc comment saying so.  All state mutation through `Arc`/`UnsafeCell` in
the source is rendered as explicit state passing; where the source mutates
a process that is aliased by the process table, the embedding updates the
table entry as well, so the pure state reflects what every holder of the
shared reference observes.
-/

namespace Enigma

/-- Process identifiers, re-exported from the process table in the source. -/
abbrev PID := Nat

/-- Modelled from the spec: the value crate is not under `src/`.  The spec
needs tagged values with a defined empty value (`Nil` in the source), a
PID-carrying variant, and linked (head, tail) list cells used to walk
argument lists during spawn; an integer variant stands for the remaining
scalar payloads. -/
inductive Value where
  | Nil : Value
  | Int : Int → Value
  | Pid : PID → Value
  | List : Value → Value → Value
  deriving DecidableEq

/-- True exactly on list cells; the spec calls every other value a
"non-list terminal". -/
def Value.isList : Value → Bool
  | .List _ _ => true
  | _ => false

/-- Modelled from the spec: `Value::to_usize` of the value crate is not under
`src/`; the spec says `send_message` receives "a target identified by a
PID-carrying value", so the PID variant yields its payload. -/
def Value.to_usize : Value → Nat
  | .Pid n => n
  | .Int n => n.toNat
  | _ => 0

/-- Modelled from the spec: the exception crate is not under `src/`; only the
slot type is needed. -/
structure Exception where
  message : String
  deriving DecidableEq

/-- Modelled from the spec: the per-process garbage-collected heap is an
external collaborator; only its existence and construction are needed. -/
structure Heap where
  deriving DecidableEq

def Heap.new : Heap := {}

/-- Modelled from the spec: the bytecode module is an external collaborator;
this core only consults its function table, a lookup from (name, arity)
keys to entry instruction offsets. -/
structure Module where
  funs : List ((Nat × Nat) × Nat)
  deriving DecidableEq

/-- Modelled from the spec: the mailbox is "a two-lane message queue
(self-sent vs. externally-sent) owned by a process; core code only calls
`send_internal`/`send_external`".  Each lane records the messages it was
handed, in order. -/
structure Mailbox where
  internal : List Value
  lane_ext : List Value
  deriving DecidableEq

def Mailbox.new : Mailbox := ⟨[], []⟩

/-- Modelled from the spec: `send_internal(msg)`, "enqueue from the owning
process itself". -/
def Mailbox.send_internal (m : Mailbox) (msg : Value) : Mailbox :=
  { m with internal := m.internal ++ [msg] }

/-- Modelled from the spec: `send_external(msg)`, "enqueue from any other
process, internally synchronized". -/
def Mailbox.send_ext (m : Mailbox) (msg : Value) : Mailbox :=
  { m with lane_ext := m.lane_ext ++ [msg] }

/-- `ExecutionContext` of `src/process.rs`: X registers, floating point
registers, stack, heap, catch count, instruction pointer, continuation
pointer, live count, current module, binary construction state and captured
exception.  The fixed 16-slot register arrays are lists of length 16; the
raw module pointer is the module value itself; the uninitialized `bs`
pointer is an absent optional. -/
structure ExecutionContext where
  x : List Value
  f : List Float
  stack : List Value
  heap : Heap
  catches : Nat
  ip : Nat
  cp : Option Nat
  live : Nat
  module : Module
  bs : Option String
  exc : Option Exception

/-- `ExecutionContext::new`: the source allocates the `x` array raw and then
overwrites every slot with `Value::Nil()` before the context escapes, so the
net result is sixteen `Nil` registers; `f` is `[0.0f64; 16]`, the stack is a
fresh vector, `catches`, `ip` and `live` are 0 and `cp` is `None`. -/
def ExecutionContext.new (module : Module) : ExecutionContext :=
  { x := List.replicate 16 Value.Nil
    f := List.replicate 16 (0.0 : Float)
    stack := []
    heap := Heap.new
    catches := 0
    ip := 0
    cp := none
    live := 0
    module := module
    bs := none
    exc := none }

/-- `LocalData` of `src/process.rs`: context, mailbox, pinned thread and the
process dictionary (the `HashMap` is an association list here). -/
structure LocalData where
  context : ExecutionContext
  mailbox : Mailbox
  thread_id : Option Nat
  dictionary : List (Value × Value)

/-- `Process` of `src/process.rs`: the `UnsafeCell<LocalData>` is the plain
bundle (mutation is explicit state passing), the `AtomicBool` is a `Bool`. -/
structure Process where
  local_data : LocalData
  pid : PID
  waiting_for_message : Bool

/-- `Process::with_rc`: fresh mailbox, no thread affinity, empty dictionary,
waiting flag created `false`. -/
def Process.with_rc (pid : PID) (context : ExecutionContext) : Process :=
  { local_data :=
      { context := context
        mailbox := Mailbox.new
        thread_id := none
        dictionary := [] }
    pid := pid
    waiting_for_message := false }

/-- `Process::from_block`: a fresh context over the module, wrapped by
`with_rc`. -/
def Process.from_block (pid : PID) (module : Module) : Process :=
  Process.with_rc pid (ExecutionContext.new module)

/-- The `context_mut`/`local_data` accessor chain, read side. -/
def Process.context (p : Process) : ExecutionContext :=
  p.local_data.context

/-- `Process::is_main`. -/
def Process.is_main (p : Process) : Bool :=
  p.pid == 0

/-- `Process::send_message`: internal lane when the sender's pid equals this
process's pid, external lane otherwise. -/
def Process.send_message (self : Process) (sender : Process) (message : Value) : Process :=
  if sender.pid = self.pid then
    { self with local_data :=
        { self.local_data with mailbox := self.local_data.mailbox.send_internal message } }
  else
    { self with local_data :=
        { self.local_data with mailbox := self.local_data.mailbox.send_ext message } }

/-- `Process::set_waiting_for_message`. -/
def Process.set_waiting_for_message (p : Process) (value : Bool) : Process :=
  { p with waiting_for_message := value }

/-- `Process::is_waiting_for_message`. -/
def Process.is_waiting_for_message (p : Process) : Bool :=
  p.waiting_for_message

/-- Modelled from the spec: the process table is an external collaborator
with `reserve() -> Option<PID>` ("returns a fresh PID or signals
exhaustion"), `map(pid, process)` and `get(pid) -> Option<Process>`.  The
pool of reservable PIDs is a list; `reserve` hands out its head.  Reserving
returns the successor table state alongside the PID, because the source
mutates the locked table in place. -/
structure ProcessTable where
  free : List PID
  entries : List (PID × Process)

def ProcessTable.reserve (t : ProcessTable) : Option (PID × ProcessTable) :=
  match t.free with
  | [] => none
  | p :: rest => some (p, { t with free := rest })

/-- Modelled from the spec: `map(pid, process)` "registers a process under
its reserved PID". -/
def ProcessTable.map (t : ProcessTable) (pid : PID) (p : Process) : ProcessTable :=
  { t with entries := (pid, p) :: t.entries }

/-- Modelled from the spec: `get(pid)` returns "the process or signals
unknown PID". -/
def ProcessTable.get (t : ProcessTable) (pid : PID) : Option Process :=
  t.entries.lookup pid

/-- In the source a looked-up process is an `Arc`: mutating it mutates the
very object the table maps.  `put` replays such a mutation on the pure
table state, replacing the entry under `pid`. -/
def ProcessTable.put (t : ProcessTable) (pid : PID) (p : Process) : ProcessTable :=
  { t with entries := t.entries.map (fun e => if e.1 = pid then (pid, p) else e) }

/-- Modelled from the spec: job priorities of the scheduler pool; this core
only ever uses `Job::normal`. -/
inductive Priority where
  | Normal : Priority
  deriving DecidableEq

/-- Modelled from the spec: "a unit of schedulable work wrapping a runnable
process". -/
structure Job where
  process : Process
  priority : Priority

def Job.normal (p : Process) : Job :=
  ⟨p, Priority.Normal⟩

/-- Modelled from the spec: the scheduler pool "accepts runnable processes
as jobs"; the queue records every accepted job in order. -/
structure Pool where
  queue : List Job

def Pool.schedule (pool : Pool) (job : Job) : Pool :=
  { pool with queue := pool.queue ++ [job] }

/-- `RcState` as this core consumes it: the locked process table and the
process pool. -/
structure State where
  process_table : ProcessTable
  process_pool : Pool

/-- `allocate` of `src/process.rs`: reserve a PID (error when none), build
the process with `from_block`, map it under the reserved PID, return it. -/
def allocate (state : State) (module : Module) : Except String (Process × State) :=
  match state.process_table.reserve with
  | none => Except.error "No PID could be reserved"
  | some (pid, table1) =>
    let process := Process.from_block pid module
    Except.ok (process, { state with process_table := table1.map pid process })

/-- The argument copy-in loop of `spawn`: `while let Value::List(ptr) = *cons`
copies each head into `x[i]` and finally writes the non-list terminal into
`x[i]`.  Rust's indexing is bounds-checked, so an index at or past the
register count aborts the spawn; that abort is `none` here. -/
def copyArgs (i : Nat) (cons : Value) (x : List Value) : Option (List Value) :=
  match cons with
  | .List hd tl => if i < x.length then copyArgs (i + 1) tl (x.set i hd) else none
  | v => if i < x.length then some (x.set i v) else none

/-- Outcome of `spawn`: a returned `Ok(pid_value)` with the successor state,
a returned recoverable `Err`, or an abort of the call path (the `expect` on
the function lookup, or an out-of-bounds register index). -/
inductive SpawnResult where
  | ok : Value → State → SpawnResult
  | err : String → SpawnResult
  | fatal : SpawnResult

def SpawnResult.isOk : SpawnResult → Bool
  | .ok _ _ => true
  | _ => false

instance : Inhabited Module := ⟨⟨[]⟩⟩

instance : Inhabited State := ⟨⟨⟨[], []⟩, ⟨[]⟩⟩⟩

def SpawnResult.getState : SpawnResult → State
  | .ok _ st => st
  | _ => default

def SpawnResult.getValue : SpawnResult → Value
  | .ok v _ => v
  | _ => Value.Nil

/-- `spawn` of `src/process.rs`: allocate (propagating the allocation
error), look the function up in the module's function table under the key
`(func, 1)` (the arity is the literal 1 in the source) aborting when absent,
set the context's `ip` to the entry offset, copy the argument list into the
registers, schedule the process as a normal job and return its PID as a
value.  The context mutation happens through the `Arc`, so the table entry
is updated to the mutated process. -/
def spawn (state : State) (module : Module) (func : Nat) (args : Value) : SpawnResult :=
  match allocate state module with
  | Except.error e => SpawnResult.err e
  | Except.ok (new_proc, state1) =>
    let new_pid := new_proc.pid
    let pid_ptr := Value.Pid new_pid
    match module.funs.lookup (func, 1) with
    | none => SpawnResult.fatal
    | some entry =>
      let ctx1 := { new_proc.local_data.context with ip := entry }
      match copyArgs 0 args ctx1.x with
      | none => SpawnResult.fatal
      | some x1 =>
        let ctx2 := { ctx1 with x := x1 }
        let new_proc2 :=
          { new_proc with local_data := { new_proc.local_data with context := ctx2 } }
        let state2 :=
          { state1 with process_table := state1.process_table.put new_pid new_proc2 }
        SpawnResult.ok pid_ptr
          { state2 with
              process_pool := state2.process_pool.schedule (Job.normal new_proc2) }

/-- The free `send_message` of `src/process.rs`: resolve the pid value in
the process table; when absent do nothing; when present deliver through the
receiver's dispatch, and if the receiver is waiting for a message clear the
flag and schedule it as a normal job.  Always returns the message.  Flag
clearing and mailbox delivery go through the `Arc`, so the table entry is
updated accordingly. -/
def send_message (state : State) (process : Process) (pid : Value) (msg : Value) :
    Except Exception (Value × State) :=
  let pidN := pid.to_usize
  match state.process_table.get pidN with
  | none => Except.ok (msg, state)
  | some receiver =>
    let receiver1 := receiver.send_message process msg
    if receiver1.is_waiting_for_message then
      let receiver2 := receiver1.set_waiting_for_message false
      let state1 := { state with process_table := state.process_table.put pidN receiver2 }
      Except.ok
        (msg, { state1 with process_pool := state1.process_pool.schedule (Job.normal receiver2) })
    else
      Except.ok (msg, { state with process_table := state.process_table.put pidN receiver1 })

/-- A linked argument list as the spec describes it: a sequence of
(head, tail) cells of length `elems.length` ending in the terminal `t`. -/
def argList : List Value → Value → Value
  | [], t => t
  | a :: as, t => Value.List a (argList as t)

/-- The process `spawn` leaves behind on its success path: the freshly
built process with its context's `ip` set to the entry offset and its
registers overwritten by the argument copy-in. -/
def procAfter (module : Module) (pid : PID) (entry : Nat) (x1 : List Value) : Process :=
  { Process.from_block pid module with
      local_data :=
        { (Process.from_block pid module).local_data with
            context :=
              { (Process.from_block pid module).local_data.context with
                  ip := entry, x := x1 } } }

/-- A concrete module for instantiating the theorems: functions 0 and 2 of
arity 1 at entry offsets 11 and 22. -/
def moduleW : Module := ⟨[((0, 1), 11), ((2, 1), 22)]⟩

/-- A concrete process with pid 7 that is parked waiting for a message. -/
def procW7 : Process :=
  { Process.from_block 7 moduleW with waiting_for_message := true }

/-- A concrete process with pid 8 that is not waiting. -/
def procW8 : Process := Process.from_block 8 moduleW

/-- A concrete process table: pids 1, 2, 3 reservable; 7 and 8 live. -/
def tableW : ProcessTable := ⟨[1, 2, 3], [(7, procW7), (8, procW8)]⟩

/-- `tableW` after reserving pid 1. -/
def tableW1 : ProcessTable := ⟨[2, 3], [(7, procW7), (8, procW8)]⟩

/-- A concrete runtime state over `tableW` with an idle pool. -/
def stateW : State := ⟨tableW, ⟨[]⟩⟩

/-- A module with an empty function table. -/
def moduleE : Module := ⟨[]⟩

/-- A state whose process table has no reservable PID left. -/
def stateE : State := ⟨⟨[], []⟩, ⟨[]⟩⟩

theorem lookup_map_put (l : List (PID × Process)) (pid : PID) (p q : Process)
    (h : l.lookup pid = some q) :
    (l.map (fun e => if e.1 = pid then (pid, p) else e)).lookup pid = some p := by
  induction l with
  | nil => simp at h
  | cons e rest ih =>
    rcases e with ⟨k, v⟩
    by_cases hk : k = pid
    · subst hk
      simp [List.lookup_cons]
    · have hne : (pid == k) = false := beq_false_of_ne fun hc => hk hc.symm
      rw [List.lookup_cons, hne] at h
      simp only [List.map_cons, if_neg hk]
      rw [List.lookup_cons, hne]
      exact ih h

theorem ProcessTable.get_put (t : ProcessTable) (pid : PID) (p q : Process)
    (h : t.get pid = some q) : (t.put pid p).get pid = some p :=
  lookup_map_put t.entries pid p q h

theorem Process.send_message_waiting (self sender : Process) (msg : Value) :
    (self.send_message sender msg).waiting_for_message = self.waiting_for_message := by
  unfold Process.send_message
  split <;> rfl

theorem copyArgs_not_list (i : Nat) (cons : Value) (x : List Value)
    (hc : cons.isList = false) :
    copyArgs i cons x = if i < x.length then some (x.set i cons) else none := by
  cases cons with
  | Nil => rfl
  | Int n => rfl
  | Pid n => rfl
  | List a b => simp [Value.isList] at hc

theorem copyArgs_some_spec (elems : List Value) :
    ∀ (t : Value), t.isList = false →
    ∀ (i : Nat) (x x1 : List Value), copyArgs i (argList elems t) x = some x1 →
      x1.length = x.length ∧
      i + elems.length < x.length ∧
      (∀ j, j < i → x1[j]? = x[j]?) ∧
      (∀ j (hj : j < elems.length), x1[i + j]? = some (elems.get ⟨j, hj⟩)) ∧
      x1[i + elems.length]? = some t := by
  induction elems with
  | nil =>
    intro t ht i x x1 h
    rw [argList, copyArgs_not_list i t x ht] at h
    by_cases hi : i < x.length
    · rw [if_pos hi] at h
      obtain rfl : x.set i t = x1 := by injection h
      refine ⟨List.length_set .., by simpa using hi, ?_, ?_, ?_⟩
      · intro j hj
        exact List.getElem?_set_ne (by omega)
      · intro j hj
        exact absurd hj (Nat.not_lt_zero j)
      · simpa using List.getElem?_set_self hi
    · rw [if_neg hi] at h
      exact absurd h (by simp)
  | cons a as ih =>
    intro t ht i x x1 h
    rw [argList] at h
    rw [show copyArgs i (Value.List a (argList as t)) x
          = if i < x.length then copyArgs (i + 1) (argList as t) (x.set i a) else none
        from rfl] at h
    by_cases hi : i < x.length
    · rw [if_pos hi] at h
      obtain ⟨hlen, hbound, hframe, helem, hterm⟩ := ih t ht (i + 1) (x.set i a) x1 h
      rw [List.length_set] at hlen hbound
      refine ⟨hlen, by simp only [List.length_cons]; omega, ?_, ?_, ?_⟩
      · intro j hj
        rw [hframe j (by omega)]
        exact List.getElem?_set_ne (by omega)
      · intro j hj
        cases j with
        | zero =>
          have h0 : x1[i]? = (x.set i a)[i]? := hframe i (by omega)
          simp only [Nat.add_zero] at h0 ⊢
          rw [h0, List.getElem?_set_self hi]
          rfl
        | succ k =>
          have hk : k < as.length := by simpa [Nat.succ_lt_succ_iff] using hj
          have := helem k hk
          rw [show i + (k + 1) = i + 1 + k by omega]
          simpa using this
      · rw [show i + (a :: as).length = i + 1 + as.length by
            simp only [List.length_cons]; omega]
        exact hterm
    · rw [if_neg hi] at h
      exact absurd h (by simp)

theorem copyArgs_overflow (elems : List Value) :
    ∀ (t : Value) (i : Nat) (x : List Value),
      x.length ≤ i + elems.length → copyArgs i (argList elems t) x = none := by
  induction elems with
  | nil =>
    intro t i x hlen
    simp only [List.length_nil] at hlen
    have hi : ¬ i < x.length := by omega
    cases t <;> simp [argList, copyArgs, hi]
  | cons a as ih =>
    intro t i x hlen
    simp only [List.length_cons] at hlen
    rw [argList]
    rw [show copyArgs i (Value.List a (argList as t)) x
          = if i < x.length then copyArgs (i + 1) (argList as t) (x.set i a) else none
        from rfl]
    by_cases hi : i < x.length
    · rw [if_pos hi]
      exact ih t (i + 1) (x.set i a) (by simp only [List.length_set]; omega)
    · rw [if_neg hi]

theorem allocate_reserve_none (state : State) (module : Module)
    (h : state.process_table.reserve = none) :
    allocate state module = Except.error "No PID could be reserved" := by
  simp [allocate, h]

theorem allocate_reserve_some (state : State) (module : Module) (pid : PID)
    (table1 : ProcessTable)
    (h : state.process_table.reserve = some (pid, table1)) :
    allocate state module =
      Except.ok (Process.from_block pid module,
        { state with process_table := table1.map pid (Process.from_block pid module) }) := by
  simp [allocate, h]

theorem spawn_reserve_err (state : State) (module : Module) (func : Nat) (args : Value)
    (h : state.process_table.reserve = none) :
    spawn state module func args = SpawnResult.err "No PID could be reserved" := by
  simp [spawn, allocate_reserve_none state module h]

theorem spawn_fun_none (state : State) (module : Module) (func : Nat) (args : Value)
    (pid : PID) (table1 : ProcessTable)
    (hres : state.process_table.reserve = some (pid, table1))
    (hfun : module.funs.lookup (func, 1) = none) :
    spawn state module func args = SpawnResult.fatal := by
  simp [spawn, allocate_reserve_some state module pid table1 hres, hfun]

theorem spawn_copy_none (state : State) (module : Module) (func : Nat) (args : Value)
    (pid : PID) (table1 : ProcessTable) (entry : Nat)
    (hres : state.process_table.reserve = some (pid, table1))
    (hfun : module.funs.lookup (func, 1) = some entry)
    (hcopy : copyArgs 0 args (List.replicate 16 Value.Nil) = none) :
    spawn state module func args = SpawnResult.fatal := by
  simp only [spawn, allocate_reserve_some state module pid table1 hres, hfun,
    Process.from_block, Process.with_rc, ExecutionContext.new, hcopy]

theorem spawn_eq_ok_of (state : State) (module : Module) (func : Nat) (args : Value)
    (pid : PID) (table1 : ProcessTable) (entry : Nat) (x1 : List Value)
    (hres : state.process_table.reserve = some (pid, table1))
    (hfun : module.funs.lookup (func, 1) = some entry)
    (hcopy : copyArgs 0 args (List.replicate 16 Value.Nil) = some x1) :
    spawn state module func args =
      SpawnResult.ok (Value.Pid pid)
        { process_table :=
            (table1.map pid (Process.from_block pid module)).put pid
              (procAfter module pid entry x1),
          process_pool :=
            state.process_pool.schedule (Job.normal (procAfter module pid entry x1)) } := by
  simp only [spawn, allocate_reserve_some state module pid table1 hres, hfun,
    Process.from_block, Process.with_rc, ExecutionContext.new, hcopy, procAfter]

theorem spawn_ok_inv (state : State) (module : Module) (func : Nat) (args : Value)
    (h : (spawn state module func args).isOk = true) :
    ∃ pid table1 entry x1,
      state.process_table.reserve = some (pid, table1) ∧
      module.funs.lookup (func, 1) = some entry ∧
      copyArgs 0 args (List.replicate 16 Value.Nil) = some x1 := by
  cases hres : state.process_table.reserve with
  | none =>
    rw [spawn_reserve_err state module func args hres] at h
    simp [SpawnResult.isOk] at h
  | some pr =>
    obtain ⟨pid, table1⟩ := pr
    cases hfun : module.funs.lookup (func, 1) with
    | none =>
      rw [spawn_fun_none state module func args pid table1 hres hfun] at h
      simp [SpawnResult.isOk] at h
    | some entry =>
      cases hcopy : copyArgs 0 args (List.replicate 16 Value.Nil) with
      | none =>
        rw [spawn_copy_none state module func args pid table1 entry hres hfun hcopy] at h
        simp [SpawnResult.isOk] at h
      | some x1 =>
        exact ⟨pid, table1, entry, x1, rfl, rfl, rfl⟩

/-- C1: every `ExecutionContext` built by `ExecutionContext::new` (and hence
the context of every `Process::from_block` process) starts with all sixteen
x registers `Nil`, all sixteen f registers `0.0`, an empty stack, catch
count 0, `ip` 0, `cp` absent and `live` 0. -/
theorem execution_context_new_init (module : Module) (pid : PID) :
    (∀ i : Fin 16, ((ExecutionContext.new module).x)[(i : Nat)]? = some Value.Nil) ∧
    (∀ i : Fin 16, ((ExecutionContext.new module).f)[(i : Nat)]? = some (0.0 : Float)) ∧
    (ExecutionContext.new module).stack = [] ∧
    (ExecutionContext.new module).catches = 0 ∧
    (ExecutionContext.new module).ip = 0 ∧
    (ExecutionContext.new module).cp = none ∧
    (ExecutionContext.new module).live = 0 ∧
    (Process.from_block pid module).context = ExecutionContext.new module := by
  refine ⟨?_, ?_, rfl, rfl, rfl, rfl, rfl, rfl⟩
  · intro i
    simp only [ExecutionContext.new, List.getElem?_replicate, i.isLt, if_true]
  · intro i
    simp only [ExecutionContext.new, List.getElem?_replicate, i.isLt, if_true]

/-- C2: a successful `spawn` on a linked argument list of `k` elements with
terminal `t` leaves the scheduled process with registers `x[0] .. x[k-1]`
holding the list elements in order and `x[k]` holding the terminal value
(so with `k = 0` register 0 holds the terminal itself); success moreover
forces `k < 16`, so every spawn the claim ranges over (`k ≤ 16`) is
covered. -/
theorem spawn_copies_args (state : State) (module : Module) (func : Nat)
    (elems : List Value) (t : Value)
    (ht : t.isList = false)
    (hok : (spawn state module func (argList elems t)).isOk = true) :
    ∃ p : Process,
      (spawn state module func (argList elems t)).getState.process_pool.queue
        = state.process_pool.queue ++ [Job.normal p] ∧
      elems.length < 16 ∧
      (∀ (j : Fin 16) (hj : (j : Nat) < elems.length),
        (p.context.x)[(j : Nat)]? = some (elems.get ⟨(j : Nat), hj⟩)) ∧
      (p.context.x)[elems.length]? = some t := by
  obtain ⟨pid, table1, entry, x1, hres, hfun, hcopy⟩ :=
    spawn_ok_inv state module func (argList elems t) hok
  obtain ⟨hlen, hbound, hframe, helem, hterm⟩ :=
    copyArgs_some_spec elems t ht 0 (List.replicate 16 Value.Nil) x1 hcopy
  rw [List.length_replicate] at hbound
  refine ⟨procAfter module pid entry x1, ?_, by omega, ?_, ?_⟩
  · rw [spawn_eq_ok_of state module func (argList elems t) pid table1 entry x1 hres hfun hcopy]
    rfl
  · intro j hj
    have h := helem (j : Nat) hj
    rw [Nat.zero_add] at h
    exact h
  · have h := hterm
    rw [Nat.zero_add] at h
    exact h

/-- C2 witness: spawning function 0 with the two-element argument list
`[5, 6]` terminated by `Nil` in the concrete state succeeds and the claim's
register layout holds there. -/
theorem spawn_copies_args_inst :
    (Value.Nil.isList = false) ∧
    ((spawn stateW moduleW 0 (argList [Value.Int 5, Value.Int 6] Value.Nil)).isOk = true) ∧
    (∃ p : Process,
      (spawn stateW moduleW 0
          (argList [Value.Int 5, Value.Int 6] Value.Nil)).getState.process_pool.queue
        = stateW.process_pool.queue ++ [Job.normal p] ∧
      ([Value.Int 5, Value.Int 6] : List Value).length < 16 ∧
      (∀ (j : Fin 16) (hj : (j : Nat) < ([Value.Int 5, Value.Int 6] : List Value).length),
        (p.context.x)[(j : Nat)]?
          = some (([Value.Int 5, Value.Int 6] : List Value).get ⟨(j : Nat), hj⟩)) ∧
      (p.context.x)[([Value.Int 5, Value.Int 6] : List Value).length]? = some Value.Nil) :=
  ⟨rfl, rfl, spawn_copies_args stateW moduleW 0 [Value.Int 5, Value.Int 6] Value.Nil rfl rfl⟩

/-- C3: when the free `send_message` resolves the target and the receiver's
waiting flag is set, the flag is cleared and the receiver is enqueued with
the scheduler as a normal-priority job exactly once; when the flag is not
set, the pool receives no job at all. -/
theorem send_message_wake (state : State) (proc : Process) (pidv msg : Value)
    (receiver : Process)
    (hget : state.process_table.get pidv.to_usize = some receiver) :
    ∃ st2, send_message state proc pidv msg = Except.ok (msg, st2) ∧
      (receiver.waiting_for_message = true →
        st2.process_pool.queue = state.process_pool.queue
          ++ [Job.normal ((receiver.send_message proc msg).set_waiting_for_message false)] ∧
        ((receiver.send_message proc msg).set_waiting_for_message false).waiting_for_message
          = false ∧
        st2.process_table.get pidv.to_usize
          = some ((receiver.send_message proc msg).set_waiting_for_message false)) ∧
      (receiver.waiting_for_message = false →
        st2.process_pool.queue = state.process_pool.queue) := by
  have hflag : (receiver.send_message proc msg).is_waiting_for_message
      = receiver.waiting_for_message := by
    rw [Process.is_waiting_for_message, Process.send_message_waiting]
  cases hw : receiver.waiting_for_message with
  | true =>
    have heq : send_message state proc pidv msg =
        Except.ok (msg,
          { process_table := state.process_table.put pidv.to_usize
              ((receiver.send_message proc msg).set_waiting_for_message false),
            process_pool := state.process_pool.schedule
              (Job.normal ((receiver.send_message proc msg).set_waiting_for_message false)) }) := by
      simp only [send_message, hget]
      split
      · rfl
      · next h => exact absurd (hflag.trans hw) h
    refine ⟨_, heq, fun _ => ⟨rfl, rfl, ?_⟩, fun hc => nomatch hc⟩
    exact ProcessTable.get_put state.process_table pidv.to_usize _ receiver hget
  | false =>
    have heq : send_message state proc pidv msg =
        Except.ok (msg,
          { state with
              process_table :=
                state.process_table.put pidv.to_usize (receiver.send_message proc msg) }) := by
      simp only [send_message, hget]
      split
      · next h => exact absurd h (by rw [hflag.trans hw]; simp)
      · rfl
    refine ⟨_, heq, fun hc => absurd hc (by decide), fun _ => rfl⟩

/-- C3 witness: process 8 sends to the parked process 7 in the concrete
state; the wake-up conclusion holds there. -/
theorem send_message_wake_inst :
    stateW.process_table.get (Value.Pid 7).to_usize = some procW7 ∧
    (∃ st2, send_message stateW procW8 (Value.Pid 7) (Value.Int 42)
        = Except.ok (Value.Int 42, st2) ∧
      (procW7.waiting_for_message = true →
        st2.process_pool.queue = stateW.process_pool.queue
          ++ [Job.normal ((procW7.send_message procW8 (Value.Int 42)).set_waiting_for_message
                false)] ∧
        ((procW7.send_message procW8 (Value.Int 42)).set_waiting_for_message
            false).waiting_for_message = false ∧
        st2.process_table.get (Value.Pid 7).to_usize
          = some ((procW7.send_message procW8 (Value.Int 42)).set_waiting_for_message false)) ∧
      (procW7.waiting_for_message = false →
        st2.process_pool.queue = stateW.process_pool.queue)) :=
  ⟨rfl, send_message_wake stateW procW8 (Value.Pid 7) (Value.Int 42) procW7 rfl⟩

/-- C4: the free `send_message` always returns the message successfully; in
particular when the target PID is unknown to (or retired from) the process
table the send is a silent no-op, leaving the entire state — every mailbox
and the scheduler queue — unchanged. -/
theorem send_message_unknown_pid (state : State) (proc : Process) (pidv msg : Value) :
    ∃ st2, send_message state proc pidv msg = Except.ok (msg, st2) ∧
      (state.process_table.get pidv.to_usize = none → st2 = state) := by
  cases hget : state.process_table.get pidv.to_usize with
  | none =>
    refine ⟨state, ?_, fun _ => rfl⟩
    simp [send_message, hget]
  | some receiver =>
    cases hw : (receiver.send_message proc msg).is_waiting_for_message with
    | true =>
      have heq : send_message state proc pidv msg =
          Except.ok (msg,
            { process_table := state.process_table.put pidv.to_usize
                ((receiver.send_message proc msg).set_waiting_for_message false),
              process_pool := state.process_pool.schedule
                (Job.normal
                  ((receiver.send_message proc msg).set_waiting_for_message false)) }) := by
        simp only [send_message, hget]
        split
        · rfl
        · next h => exact absurd hw h
      exact ⟨_, heq, fun hc => nomatch hc⟩
    | false =>
      have heq : send_message state proc pidv msg =
          Except.ok (msg,
            { state with
                process_table :=
                  state.process_table.put pidv.to_usize (receiver.send_message proc msg) }) := by
        simp only [send_message, hget]
        split
        · next h => exact absurd h (by rw [hw]; simp)
        · rfl
      exact ⟨_, heq, fun hc => nomatch hc⟩

/-- C5: `Process::send_message` enqueues on the mailbox's internal lane
exactly when the sender's pid equals the receiver's pid, and on the
external lane otherwise. -/
theorem process_send_lane (p sender : Process) (msg : Value) :
    (p.send_message sender msg).local_data.mailbox =
      (if sender.pid = p.pid
        then { p.local_data.mailbox with
                 internal := p.local_data.mailbox.internal ++ [msg] }
        else { p.local_data.mailbox with
                 lane_ext := p.local_data.mailbox.lane_ext ++ [msg] }) := by
  by_cases h : sender.pid = p.pid <;>
    simp [Process.send_message, h, Mailbox.send_internal, Mailbox.send_ext]

/-- C6: when `reserve()` yields no PID, `allocate` returns the allocation
error and nothing else happens; when it yields a PID, `allocate` builds the
process with `from_block`, registers it in the table under that PID (so the
returned state's table resolves the PID to the very process returned — no
reserved-but-unmapped PID remains) and returns it. -/
theorem allocate_contract (state : State) (module : Module) :
    (state.process_table.reserve = none →
      allocate state module = Except.error "No PID could be reserved") ∧
    (∀ pid table1, state.process_table.reserve = some (pid, table1) →
      allocate state module =
        Except.ok (Process.from_block pid module,
          { state with process_table := table1.map pid (Process.from_block pid module) }) ∧
      (table1.map pid (Process.from_block pid module)).get pid
        = some (Process.from_block pid module)) := by
  refine ⟨fun h => allocate_reserve_none state module h, fun pid table1 h => ⟨allocate_reserve_some state module pid table1 h, ?_⟩⟩
  simp [ProcessTable.get, ProcessTable.map]

/-- C7: on every successful `spawn` the scheduled process's `ip` is the
entry offset the module's function table holds under the requested
function's (name, arity) key — the source pairs the requested name with
arity 1 — the process is handed to the scheduler as exactly one
normal-priority job, and the returned value is that process's PID wrapped
as a value. -/
theorem spawn_entry_point (state : State) (module : Module) (func : Nat) (args : Value)
    (hok : (spawn state module func args).isOk = true) :
    ∃ entry, ∃ p : Process,
      module.funs.lookup (func, 1) = some entry ∧
      p.context.ip = entry ∧
      (spawn state module func args).getState.process_pool.queue
        = state.process_pool.queue ++ [Job.normal p] ∧
      (spawn state module func args).getValue = Value.Pid p.pid := by
  obtain ⟨pid, table1, entry, x1, hres, hfun, hcopy⟩ :=
    spawn_ok_inv state module func args hok
  refine ⟨entry, procAfter module pid entry x1, hfun, rfl, ?_, ?_⟩
  · rw [spawn_eq_ok_of state module func args pid table1 entry x1 hres hfun hcopy]
    rfl
  · rw [spawn_eq_ok_of state module func args pid table1 entry x1 hres hfun hcopy]
    rfl

/-- C7 witness: spawning function 0 in the concrete state resolves entry
offset 11 and the conclusion holds there. -/
theorem spawn_entry_point_inst :
    ((spawn stateW moduleW 0 Value.Nil).isOk = true) ∧
    (∃ entry, ∃ p : Process,
      moduleW.funs.lookup (0, 1) = some entry ∧
      p.context.ip = entry ∧
      (spawn stateW moduleW 0 Value.Nil).getState.process_pool.queue
        = stateW.process_pool.queue ++ [Job.normal p] ∧
      (spawn stateW moduleW 0 Value.Nil).getValue = Value.Pid p.pid) :=
  ⟨rfl, spawn_entry_point stateW moduleW 0 Value.Nil rfl⟩

/-- C8 counterexample: a call to `spawn` whose function identifier does not
resolve (empty function table) but whose PID reservation also fails is not
fatal — it returns the recoverable allocation failure, because `spawn`
allocates before it resolves the function. -/
theorem spawn_unresolved_cex :
    moduleE.funs.lookup (0, 1) = none ∧
    spawn stateE moduleE 0 Value.Nil = SpawnResult.err "No PID could be reserved" :=
  ⟨rfl, rfl⟩

/-- C8 (amended): for every call to `spawn` whose PID reservation succeeds
and whose function identifier does not resolve in the module's function
table, the spawn is a fatal condition aborting the call path, not a
recoverable failure result. -/
theorem spawn_unresolved_aborts (state : State) (module : Module) (func : Nat)
    (args : Value) (pid : PID) (table1 : ProcessTable)
    (hres : state.process_table.reserve = some (pid, table1))
    (hfun : module.funs.lookup (func, 1) = none) :
    spawn state module func args = SpawnResult.fatal :=
  spawn_fun_none state module func args pid table1 hres hfun

/-- C8 witness: in the concrete state (reservation succeeds) a spawn
against the empty function table aborts fatally. -/
theorem spawn_unresolved_aborts_inst :
    stateW.process_table.reserve = some (1, tableW1) ∧
    moduleE.funs.lookup (5, 1) = none ∧
    spawn stateW moduleE 5 Value.Nil = SpawnResult.fatal :=
  ⟨rfl, rfl, spawn_unresolved_aborts stateW moduleE 5 Value.Nil 1 tableW1 rfl rfl⟩

/-- C9: a spawn whose argument list is longer than the 16-slot register
file never succeeds (no silent truncation on any path), and whenever the
copy-in is actually reached (reservation and function resolution succeed)
the bounds-checked register write aborts the spawn fatally. -/
theorem spawn_overflow_guard (state : State) (module : Module) (func : Nat)
    (elems : List Value) (t : Value)
    (hlen : 16 < elems.length) :
    (spawn state module func (argList elems t)).isOk = false ∧
    (∀ pid table1 entry,
      state.process_table.reserve = some (pid, table1) →
      module.funs.lookup (func, 1) = some entry →
      spawn state module func (argList elems t) = SpawnResult.fatal) := by
  have hnone : copyArgs 0 (argList elems t) (List.replicate 16 Value.Nil) = none := by
    apply copyArgs_overflow
    rw [List.length_replicate]
    omega
  constructor
  · cases hres : state.process_table.reserve with
    | none =>
      rw [spawn_reserve_err state module func (argList elems t) hres]
      rfl
    | some pr =>
      obtain ⟨pid, table1⟩ := pr
      cases hfun : module.funs.lookup (func, 1) with
      | none =>
        rw [spawn_fun_none state module func (argList elems t) pid table1 hres hfun]
        rfl
      | some entry =>
        rw [spawn_copy_none state module func (argList elems t) pid table1 entry hres hfun hnone]
        rfl
  · intro pid table1 entry hres hfun
    exact spawn_copy_none state module func (argList elems t) pid table1 entry hres hfun hnone

/-- C9 witness: a 17-element argument list in the concrete state is fatal,
never a success. -/
theorem spawn_overflow_guard_inst :
    (16 < (List.replicate 17 (Value.Int 0)).length) ∧
    ((spawn stateW moduleW 0 (argList (List.replicate 17 (Value.Int 0)) Value.Nil)).isOk
        = false ∧
      (∀ pid table1 entry,
        stateW.process_table.reserve = some (pid, table1) →
        moduleW.funs.lookup (0, 1) = some entry →
        spawn stateW moduleW 0 (argList (List.replicate 17 (Value.Int 0)) Value.Nil)
          = SpawnResult.fatal)) :=
  ⟨by decide,
    spawn_overflow_guard stateW moduleW 0 (List.replicate 17 (Value.Int 0)) Value.Nil
      (by decide)⟩

/-- C10: every process built by `Process::with_rc` — and hence by
`from_block`, by `allocate`, and the process a successful `spawn`
schedules — starts with its waiting flag `false`: no process is born
parked. -/
theorem new_process_not_waiting (pid : PID) (ctx : ExecutionContext) (module : Module)
    (state : State) (func : Nat) (args : Value) :
    (Process.with_rc pid ctx).waiting_for_message = false ∧
    (Process.from_block pid module).waiting_for_message = false ∧
    (∀ (p : Process) (st2 : State), allocate state module = Except.ok (p, st2) →
      p.waiting_for_message = false) ∧
    ((spawn state module func args).isOk = true →
      ∃ p : Process,
        (spawn state module func args).getState.process_pool.queue
          = state.process_pool.queue ++ [Job.normal p] ∧
        p.waiting_for_message = false) := by
  refine ⟨rfl, rfl, ?_, ?_⟩
  · intro p st2 h
    cases hres : state.process_table.reserve with
    | none =>
      rw [allocate_reserve_none state module hres] at h
      exact absurd h (by simp)
    | some pr =>
      obtain ⟨pid2, table1⟩ := pr
      rw [allocate_reserve_some state module pid2 table1 hres] at h
      simp only [Except.ok.injEq, Prod.mk.injEq] at h
      obtain ⟨h1, h2⟩ := h
      rw [← h1]
      rfl
  · intro hok
    obtain ⟨pid2, table1, entry, x1, hres, hfun, hcopy⟩ :=
      spawn_ok_inv state module func args hok
    refine ⟨procAfter module pid2 entry x1, ?_, rfl⟩
    rw [spawn_eq_ok_of state module func args pid2 table1 entry x1 hres hfun hcopy]
    rfl

end Enigma
